import Mathlib

/-!
Shallow embedding of `bsky-sampler.go` (the MaxHeap revision: global
`allPosts = &MaxHeap\x7b\x7d`, hourly ticker, port 80).

Modelling conventions:
* Go strings are Lean `String`; Go string comparison (`<=` on bytes) is the
  lexicographic order on `String` (timestamps here are ASCII, where the two
  agree).
* The remote XRPC service is an oracle `Remote` supplying the results of the
  two network calls (`atproto.IdentityResolveHandle`,
  `bsky.FeedGetAuthorFeed`).  Each embedded operation also returns the list
  of remote calls it issued, so that call-counting claims can be stated.
* `log.Fatalf` (process exit) and a runtime panic are distinct terminal
  outcomes of an operation, `Outcome.fatal` and `Outcome.panicked`; a normal
  return is `Outcome.ok`.  In the Go source `getHandlePostList` fatals
  internally on either remote error, so its Go-level `error` result is
  always `nil`; the embedding therefore has no error component and the
  `err != nil` branches of its callers are dead.
* `rand.Intn n` returns some value in `[0, n)` (panicking for `n <= 0`);
  the embedding takes the generator draw `r : Nat` as a parameter and
  returns `r % n`, which ranges over exactly the values `Intn` can return.
* `json.NewEncoder(w).Encode` of a `PostData` is modelled structurally: the
  emitted value is a JSON object with the fields given by the struct tags
  ("text", "timestamp", "uri").  Whether `Encode` reports an error is an
  oracle parameter of the handler, since it depends on the effectful writer.
-/

/-- Go struct `PostData` (json tags "text", "timestamp", "uri"). -/
structure PostData where
  text : String
  timestamp : String
  uri : String
deriving DecidableEq, Repr, Inhabited

/-- The concrete record type `bsky.FeedPost` (the fields the program reads). -/
structure FeedPost where
  text : String
  createdAt : String
deriving DecidableEq, Repr

/-- The lexicon union stored in `post.Record.Val`: either a `*bsky.FeedPost`
or some other record kind (which the Go type assertion
`Record.Val.(*bsky.FeedPost)` would reject at runtime). -/
inductive RecordVal where
  | feedPost (p : FeedPost)
  | other
deriving DecidableEq, Repr

/-- The author field of a `bsky.FeedDefs_PostView` (only `.Did` is read). -/
structure Author where
  did : String
deriving DecidableEq, Repr

/-- `bsky.FeedDefs_PostView`, restricted to the fields the program reads:
`Author.Did`, `Uri`, and the decoded record `Record.Val`. -/
structure PostView where
  author : Author
  uri : String
  record : RecordVal
deriving DecidableEq, Repr

/-- Result of one remote XRPC call: a value or a transport/decode error. -/
inductive RemoteResult (α : Type) where
  | ok (a : α)
  | err
deriving DecidableEq, Repr

/-- Oracle for the remote service: the response to
`IdentityResolveHandle` (handle ↦ DID) and to `FeedGetAuthorFeed`
(DID and page limit ↦ feed items).  The fixed arguments of the Go call
(cursor "", filter "posts_no_replies", includePins false) are constants in
the source and are not modelled as oracle inputs. -/
structure Remote where
  resolve : String → RemoteResult String
  feed : String → Int → RemoteResult (List PostView)

/-- A remote call issued by the program, for trace-based claims. -/
inductive RemoteCall where
  | resolveHandle (handle : String)
  | getAuthorFeed (did : String) (limit : Int)
deriving DecidableEq, Repr

/-- Terminal outcome of an embedded operation: normal return, process exit
via `log.Fatalf`, or a runtime panic. -/
inductive Outcome (α : Type) where
  | ok (a : α)
  | fatal (msg : String)
  | panicked (msg : String)
deriving DecidableEq, Repr

/-- Go `type MaxHeap []PostData`.  The program defines the
`container/heap` interface methods (`Len`, `Less`, `Swap`, `Push`, `Pop`)
but never calls `heap.Init`, `heap.Push` or `heap.Pop`; only `Len`, `Push`
(called directly, so a plain append) and `Get` are exercised. -/
abbrev MaxHeap := List PostData

/-- `func (h MaxHeap) Len() int`. -/
def MaxHeap.Len (h : MaxHeap) : Nat := h.length

/-- `func (h *MaxHeap) Push(x interface\x7b\x7d)`: `*h = append(*h, x.(PostData))`. -/
def MaxHeap.Push (h : MaxHeap) (x : PostData) : MaxHeap := h ++ [x]

/-- `func (h *MaxHeap) Get(index int) PostData`: panics when
`index < 0 || index >= len(*h)`, else returns `(*h)[index]`.
`none` models the panic branch. -/
def MaxHeap.Get (h : MaxHeap) (index : Int) : Option PostData :=
  if index < 0 ∨ (h.length : Int) ≤ index then none
  else h.get? index.toNat

/-- `getHandlePostList`: resolve the handle to a DID (`log.Fatalf` on
error), fetch the author feed with the given limit (`log.Fatalf` on error),
then keep the posts whose `Author.Did` equals the resolved DID.  Returns
the surviving `PostView`s and the trace of remote calls issued.  The Go
function returns `(postList, nil)`: its error result is always `nil`. -/
def getHandlePostList (remote : Remote) (handle : String) (limit : Int) :
    Outcome (List PostView) × List RemoteCall :=
  match remote.resolve handle with
  | RemoteResult.err => (Outcome.fatal "Error resolving handle", [RemoteCall.resolveHandle handle])
  | RemoteResult.ok did =>
    match remote.feed did limit with
    | RemoteResult.err =>
        (Outcome.fatal "Oh no! Error fetching feed",
         [RemoteCall.resolveHandle handle, RemoteCall.getAuthorFeed did limit])
    | RemoteResult.ok feed =>
        (Outcome.ok (feed.filter fun post => post.author.did == did),
         [RemoteCall.resolveHandle handle, RemoteCall.getAuthorFeed did limit])

/-- The loop body of `updatePosts`: for each fetched post, assert
`post.Record.Val.(*bsky.FeedPost)` (panicking when the record is another
kind), build a `PostData` and `allPosts.Push` it. -/
def pushAll (postList : List PostView) (allPosts : MaxHeap) : Outcome MaxHeap :=
  match postList with
  | [] => Outcome.ok allPosts
  | post :: rest =>
    match post.record with
    | RecordVal.other => Outcome.panicked "interface conversion: not a FeedPost"
    | RecordVal.feedPost fp =>
        pushAll rest (MaxHeap.Push allPosts (PostData.mk fp.text fp.createdAt post.uri))

/-- `updatePosts`: fetch via `getHandlePostList(ctx, client, handle, 100)`
(the source passes the literal `100`, ignoring its own `limit` parameter),
`log.Fatalf` on error (dead: the fetch never returns a non-nil error), then
push every fetched post onto the global `allPosts`. -/
def updatePosts (remote : Remote) (handle : String) (limit : Int) (allPosts : MaxHeap) :
    Outcome MaxHeap × List RemoteCall :=
  let r := getHandlePostList remote handle 100
  match r.1 with
  | Outcome.fatal msg => (Outcome.fatal msg, r.2)
  | Outcome.panicked msg => (Outcome.panicked msg, r.2)
  | Outcome.ok postList => (pushAll postList allPosts, r.2)

/-- Lexicographic comparison of character lists, auxiliary to `goStrLe`. -/
def charListLe : List Char → List Char → Bool
  | [], _ => true
  | _ :: _, [] => false
  | a :: as, b :: bs => if a < b then true else if b < a then false else charListLe as bs

/-- Go string comparison `a <= b`: lexicographic on the UTF-8 bytes, which
coincides with lexicographic code-point order (UTF-8 preserves it). -/
def goStrLe (a b : String) : Bool := charListLe a.data b.data

/-- `checkForNewPosts`: fetch one post via
`getHandlePostList(ctx, client, handle, 1)`; the `err != nil` log-and-return
branch is dead (the fetch fatals internally instead).  Then
`postList[0]` (index panic when the list is empty), the type assertion
`.Record.Val.(*bsky.FeedPost)` (panic on another record kind), and the
comparison `recentPost.CreatedAt <= allPosts.Get(0).Timestamp` (where
`Get(0)` panics on an empty heap): on `<=` return leaving the store
untouched, otherwise `updatePosts(ctx, client, handle, 100)`. -/
def checkForNewPosts (remote : Remote) (handle : String) (limit : Int) (allPosts : MaxHeap) :
    Outcome MaxHeap × List RemoteCall :=
  let r := getHandlePostList remote handle 1
  match r.1 with
  | Outcome.fatal msg => (Outcome.fatal msg, r.2)
  | Outcome.panicked msg => (Outcome.panicked msg, r.2)
  | Outcome.ok postList =>
    match postList.head? with
    | none => (Outcome.panicked "index out of range", r.2)
    | some recent =>
      match recent.record with
      | RecordVal.other => (Outcome.panicked "interface conversion: not a FeedPost", r.2)
      | RecordVal.feedPost recentPost =>
        match MaxHeap.Get allPosts 0 with
        | none => (Outcome.panicked "Index out of bounds", r.2)
        | some newest =>
          if goStrLe recentPost.createdAt newest.timestamp then
            (Outcome.ok allPosts, r.2)
          else
            let u := updatePosts remote handle 100 allPosts
            (u.1, r.2 ++ u.2)

/-- `rand.Intn(n)`: panics (`none`) when `n ≤ 0`, otherwise returns a value
in `[0, n)`; the draw `r` selects which one. -/
def randIntn (r : Nat) (n : Nat) : Option Nat :=
  if n = 0 then none else some (r % n)

/-- JSON values, as far as the program emits them. -/
inductive Json where
  | str (s : String)
  | obj (fields : List (String × Json))

/-- What `json.NewEncoder(w).Encode` emits for a `PostData`: an object with
exactly the tagged fields "text", "timestamp", "uri". -/
def postDataJson (p : PostData) : Json :=
  Json.obj [("text", Json.str p.text), ("timestamp", Json.str p.timestamp),
            ("uri", Json.str p.uri)]

/-- An HTTP response body: plain text (`http.Error`) or an encoded JSON value. -/
inductive Body where
  | plain (s : String)
  | json (j : Json)

/-- Status, Content-Type and body of one HTTP response. -/
structure HttpResponse where
  status : Nat
  contentType : String
  body : Body

/-- `randomPostHandler`: 404 via `http.Error` when `allPosts.Len() == 0`;
otherwise sample `randomIndex := rand.Intn(allPosts.Len())`, read
`allPosts.Get(randomIndex)`, set Content-Type `application/json`, and
encode the post (500 via `http.Error`, which resets the Content-Type to
text/plain, when the encoder reports an error).  `r` is the generator draw
behind `Intn`; `encodeErr` is the encoder-error oracle; `none` models a
panic escaping the handler. -/
def randomPostHandler (allPosts : MaxHeap) (r : Nat) (encodeErr : Bool) :
    Option HttpResponse :=
  if MaxHeap.Len allPosts = 0 then
    some (HttpResponse.mk 404 "text/plain; charset=utf-8" (Body.plain "No posts available"))
  else
    match randIntn r (MaxHeap.Len allPosts) with
    | none => none
    | some randomIndex =>
      match MaxHeap.Get allPosts (randomIndex : Int) with
      | none => none
      | some randomPost =>
        if encodeErr then
          some (HttpResponse.mk 500 "text/plain; charset=utf-8" (Body.plain "Error encoding JSON"))
        else
          some (HttpResponse.mk 200 "application/json" (Body.json (postDataJson randomPost)))

/-- Store states reachable by the program: `main` runs
`updatePosts` once on the empty store, then the ticker goroutine runs
`checkForNewPosts` each hour; the remote may answer differently on each
cycle. -/
inductive Reachable : MaxHeap → Prop where
  | init (remote : Remote) (handle : String) (s : MaxHeap) :
      (updatePosts remote handle 100 []).1 = Outcome.ok s → Reachable s
  | step (remote : Remote) (handle : String) (s s' : MaxHeap) :
      Reachable s → (checkForNewPosts remote handle 100 s).1 = Outcome.ok s' →
      Reachable s'

/-- Number of handle-resolution calls in a remote-call trace. -/
def countResolves (tr : List RemoteCall) : Nat :=
  tr.countP fun c =>
    match c with
    | RemoteCall.resolveHandle _ => true
    | RemoteCall.getAuthorFeed _ _ => false

/-! ### Concrete fixtures for counterexamples and witnesses -/

/-- A post already in the store (created 2024-01-01). -/
def pOld : PostData := PostData.mk "old" "2024-01-01T00:00:00Z" "at://carl/old"

/-- A feed view for a post created 2024-01-02. -/
def vNew : PostView :=
  PostView.mk (Author.mk "did:plc:abc") "at://carl/new"
    (RecordVal.feedPost (FeedPost.mk "new" "2024-01-02T00:00:00Z"))

/-- The `PostData` that `updatePosts` builds from `vNew`. -/
def pNew : PostData := PostData.mk "new" "2024-01-02T00:00:00Z" "at://carl/new"

/-- A feed view for a still newer post (created 2024-01-03). -/
def vTop : PostView :=
  PostView.mk (Author.mk "did:plc:abc") "at://carl/top"
    (RecordVal.feedPost (FeedPost.mk "top" "2024-01-03T00:00:00Z"))

/-- The `PostData` that `updatePosts` builds from `vTop`. -/
def pTop : PostData := PostData.mk "top" "2024-01-03T00:00:00Z" "at://carl/top"

/-- A feed view whose record is not a `*bsky.FeedPost`. -/
def vBad : PostView :=
  PostView.mk (Author.mk "did:plc:abc") "at://carl/bad" RecordVal.other

/-- Remote oracle: resolution succeeds; every feed page is `[vNew]`. -/
def remoteNew : Remote :=
  Remote.mk (fun _ => RemoteResult.ok "did:plc:abc") (fun _ _ => RemoteResult.ok [vNew])

/-- Remote oracle for a later cycle: the single-post probe returns `[vTop]`
and the full window returns `[vTop, vNew]`. -/
def remoteStep : Remote :=
  Remote.mk (fun _ => RemoteResult.ok "did:plc:abc")
    (fun _ lim => if lim == 1 then RemoteResult.ok [vTop] else RemoteResult.ok [vTop, vNew])

/-- Remote oracle whose feed call fails with a transport error. -/
def remoteFeedErr : Remote :=
  Remote.mk (fun _ => RemoteResult.ok "did:plc:abc") (fun _ _ => RemoteResult.err)

/-- Remote oracle whose handle resolution fails. -/
def remoteResolveErr : Remote :=
  Remote.mk (fun _ => RemoteResult.err) (fun _ _ => RemoteResult.err)

/-- Remote oracle returning a feed item of an unsupported record kind. -/
def remoteBad : Remote :=
  Remote.mk (fun _ => RemoteResult.ok "did:plc:abc") (fun _ _ => RemoteResult.ok [vBad])

/-! ### Helper lemmas -/

/-- When `pushAll` returns normally, the result extends the prior store:
`Push` is `append`, so prior contents are never discarded. -/
theorem pushAll_ok_extends (postList : List PostView) :
    ∀ s out : MaxHeap, pushAll postList s = Outcome.ok out → ∃ t, out = s ++ t := by
  induction postList with
  | nil =>
    intro s out h
    refine ⟨[], ?_⟩
    simp only [pushAll] at h
    cases h
    simp
  | cons post rest ih =>
    intro s out h
    cases hq : post.record with
    | other => simp [pushAll, hq] at h
    | feedPost fp =>
      simp only [pushAll, hq] at h
      rcases ih _ _ h with ⟨t, ht⟩
      refine ⟨PostData.mk fp.text fp.createdAt post.uri :: t, ?_⟩
      simpa [MaxHeap.Push] using ht

/-- The trace of `getHandlePostList` always starts with the handle
resolution call. -/
theorem getHandlePostList_trace_head (remote : Remote) (handle : String) (limit : Int) :
    (getHandlePostList remote handle limit).2.head? =
      some (RemoteCall.resolveHandle handle) := by
  cases hr : remote.resolve handle with
  | err => simp [getHandlePostList, hr]
  | ok did =>
    cases hf : remote.feed did limit with
    | err => simp [getHandlePostList, hr, hf]
    | ok feed => simp [getHandlePostList, hr, hf]

/-! ### C1 — refresh does not discard prior contents -/

/-- C1 counterexample: with prior store `[pOld]` and fetched window `[vNew]`,
`updatePosts` returns `Outcome.ok [pOld, pNew]`: the prior item `pOld` is
still present afterwards, so the refresh does not discard prior contents and
the resulting store is not equal to the fetched window alone. -/
theorem c1_refresh_retains_prior_item :
    (updatePosts remoteNew "carl.cx" 100 [pOld]).1 = Outcome.ok [pOld, pNew] ∧
    pOld ∈ ([pOld, pNew] : MaxHeap) ∧ ([pOld, pNew] : MaxHeap) ≠ [pNew] := by
  decide

/-- C1 amended: whenever `updatePosts` returns normally, the resulting store
is the prior store with the converted fetched items appended after it —
`MaxHeap.Push` is an append and nothing is discarded, so every prior item
remains at its old position. -/
theorem c1_updatePosts_appends (remote : Remote) (handle : String) (limit : Int)
    (s out : MaxHeap) (h : (updatePosts remote handle limit s).1 = Outcome.ok out) :
    ∃ t, out = s ++ t := by
  cases hg : (getHandlePostList remote handle 100).1 with
  | ok pl =>
    refine pushAll_ok_extends pl s out ?_
    simpa [updatePosts, hg] using h
  | fatal msg => simp [updatePosts, hg] at h
  | panicked msg => simp [updatePosts, hg] at h

/-- C1 amended, witness at a concrete input. -/
theorem c1_updatePosts_appends_witness :
    ∃ t, ([pOld, pNew] : MaxHeap) = [pOld] ++ t :=
  c1_updatePosts_appends remoteNew "carl.cx" 100 [pOld] [pOld, pNew] (by decide)

/-! ### C2 — fetch failure during a periodic cycle -/

/-- C2: a transport error in either remote call during a periodic check is
fatal: `getHandlePostList` calls `log.Fatalf` internally, terminating the
process, so the previous store contents are not preserved for serving and
the log-and-skip branch of `checkForNewPosts` never runs. -/
theorem c2_periodic_fetch_error_fatal :
    (checkForNewPosts remoteFeedErr "carl.cx" 100 [pOld]).1 =
      Outcome.fatal "Oh no! Error fetching feed" ∧
    (checkForNewPosts remoteResolveErr "carl.cx" 100 [pOld]).1 =
      Outcome.fatal "Error resolving handle" := by
  decide

/-! ### C3 — handle resolution frequency -/

/-- The trace of `updatePosts` is exactly the trace of its fetch. -/
theorem updatePosts_trace (remote : Remote) (handle : String) (limit : Int) (s : MaxHeap) :
    (updatePosts remote handle limit s).2 = (getHandlePostList remote handle 100).2 := by
  cases hg : (getHandlePostList remote handle 100).1 <;> simp [updatePosts, hg]

/-- The trace of `checkForNewPosts` extends the trace of its one-post probe. -/
theorem checkForNewPosts_trace_extends (remote : Remote) (handle : String) (limit : Int)
    (s : MaxHeap) :
    ∃ rest, (checkForNewPosts remote handle limit s).2 =
      (getHandlePostList remote handle 1).2 ++ rest := by
  cases hg : (getHandlePostList remote handle 1).1 with
  | fatal msg => exact ⟨[], by simp [checkForNewPosts, hg]⟩
  | panicked msg => exact ⟨[], by simp [checkForNewPosts, hg]⟩
  | ok pl =>
    cases hh : pl.head? with
    | none => exact ⟨[], by simp [checkForNewPosts, hg, hh]⟩
    | some recent =>
      cases hr : recent.record with
      | other => exact ⟨[], by simp [checkForNewPosts, hg, hh, hr]⟩
      | feedPost fp =>
        cases hget : MaxHeap.Get s 0 with
        | none => exact ⟨[], by simp [checkForNewPosts, hg, hh, hr, hget]⟩
        | some nw =>
          cases hle : goStrLe fp.createdAt nw.timestamp with
          | true => exact ⟨[], by simp [checkForNewPosts, hg, hh, hr, hget, hle]⟩
          | false =>
            exact ⟨(updatePosts remote handle 100 s).2,
              by simp [checkForNewPosts, hg, hh, hr, hget, hle]⟩

/-- C3 counterexample: one run consisting of the initial load and a single
hourly check performs two handle resolutions, not one: each call of
`getHandlePostList` resolves the handle anew. -/
theorem c3_two_resolutions_in_one_run :
    (updatePosts remoteNew "carl.cx" 100 []).1 = Outcome.ok [pNew] ∧
    countResolves ((updatePosts remoteNew "carl.cx" 100 []).2 ++
      (checkForNewPosts remoteNew "carl.cx" 100 [pNew]).2) = 2 := by
  decide

/-- C3 amended: the handle is resolved on every fetch, not once per process:
each of `getHandlePostList`, `updatePosts` and `checkForNewPosts` begins its
remote-call trace with a fresh `resolveHandle` call; no resolved identity is
cached across calls. -/
theorem c3_every_fetch_resolves (remote : Remote) (handle : String) (limit : Int)
    (s : MaxHeap) :
    (getHandlePostList remote handle limit).2.head? =
      some (RemoteCall.resolveHandle handle) ∧
    (updatePosts remote handle limit s).2.head? =
      some (RemoteCall.resolveHandle handle) ∧
    (checkForNewPosts remote handle limit s).2.head? =
      some (RemoteCall.resolveHandle handle) := by
  refine ⟨getHandlePostList_trace_head remote handle limit, ?_, ?_⟩
  · rw [updatePosts_trace]
    exact getHandlePostList_trace_head remote handle 100
  · rcases checkForNewPosts_trace_extends remote handle limit s with ⟨rest, hrest⟩
    rw [hrest]
    have hh := getHandlePostList_trace_head remote handle 1
    cases hl : (getHandlePostList remote handle 1).2 with
    | nil => rw [hl] at hh; cases hh
    | cons a tl =>
      rw [hl] at hh
      simpa using hh

/-! ### C4 — position 0 is not always the newest item -/

/-- C4: a store state reachable by the program (initial load, then one hourly
check that saw a strictly newer post) in which position 0 does not hold the
maximum-timestamp item: `Get 0` returns the 2024-01-02 post while the
2024-01-03 post sits in the middle.  The program never calls `container/heap`
on `MaxHeap`, so no heap order is ever established. -/
theorem c4_position_zero_not_newest :
    Reachable [pNew, pTop, pNew] ∧
    MaxHeap.Get [pNew, pTop, pNew] 0 = some pNew ∧
    pTop ∈ ([pNew, pTop, pNew] : MaxHeap) ∧
    goStrLe pTop.timestamp pNew.timestamp = false := by
  refine ⟨?_, by decide, by decide, by decide⟩
  refine Reachable.step remoteStep "carl.cx" [pNew] _ ?_ (by decide)
  exact Reachable.init remoteNew "carl.cx" [pNew] (by decide)

/-! ### C5 — the check is a no-op when the probed post is not newer -/

/-- C5: when the store is non-empty (`Get 0` succeeds) and the single probed
post's `CreatedAt` is at most the timestamp at position 0, `checkForNewPosts`
returns the store exactly as it was: nothing added, removed or reordered. -/
theorem c5_check_noop_when_not_newer (remote : Remote) (handle : String) (limit : Int)
    (s : MaxHeap) (pl : List PostView) (recent : PostView) (fp : FeedPost) (nw : PostData)
    (h1 : (getHandlePostList remote handle 1).1 = Outcome.ok pl)
    (h2 : pl.head? = some recent)
    (h3 : recent.record = RecordVal.feedPost fp)
    (h4 : MaxHeap.Get s 0 = some nw)
    (h5 : goStrLe fp.createdAt nw.timestamp = true) :
    (checkForNewPosts remote handle limit s).1 = Outcome.ok s := by
  simp [checkForNewPosts, h1, h2, h3, h4, h5]

/-- C5 witness: a probe returning a post with the same timestamp as the one
at position 0 leaves the one-element store unchanged. -/
theorem c5_check_noop_witness :
    (checkForNewPosts remoteNew "carl.cx" 100 [pNew]).1 = Outcome.ok [pNew] :=
  c5_check_noop_when_not_newer remoteNew "carl.cx" 100 [pNew] [vNew] vNew
    (FeedPost.mk "new" "2024-01-02T00:00:00Z") pNew (by decide) (by decide) (by decide)
    (by decide) (by decide)

/-! ### C6 — an empty store makes the check panic -/

/-- C6 counterexample: with an empty store and a perfectly healthy remote,
the hourly check panics in `Get` (index out of bounds) instead of performing
a full refresh: there is no empty-store guard before the comparison. -/
theorem c6_empty_store_check_panics_concrete :
    (checkForNewPosts remoteStep "carl.cx" 100 []).1 =
      Outcome.panicked "Index out of bounds" := by
  decide

/-- C6 amended: whenever a check begins on an empty store and the probe
succeeds with a feed-post record, the check reaches
`allPosts.Get(0)` and panics on its out-of-bounds branch; no refresh runs. -/
theorem c6_empty_store_check_panics (remote : Remote) (handle : String) (limit : Int)
    (pl : List PostView) (recent : PostView) (fp : FeedPost)
    (h1 : (getHandlePostList remote handle 1).1 = Outcome.ok pl)
    (h2 : pl.head? = some recent)
    (h3 : recent.record = RecordVal.feedPost fp) :
    (checkForNewPosts remote handle limit []).1 =
      Outcome.panicked "Index out of bounds" := by
  simp [checkForNewPosts, h1, h2, h3, MaxHeap.Get]

/-- C6 amended, witness at a concrete input. -/
theorem c6_empty_store_check_panics_witness :
    (checkForNewPosts remoteNew "carl.cx" 100 []).1 =
      Outcome.panicked "Index out of bounds" :=
  c6_empty_store_check_panics remoteNew "carl.cx" 100 [vNew] vNew
    (FeedPost.mk "new" "2024-01-02T00:00:00Z") (by decide) (by decide) (by decide)

/-! ### C7 and C8 — the HTTP handler -/

/-- `Get` at an in-bounds natural index returns the element there. -/
theorem MaxHeap.Get_of_lt (h : MaxHeap) (i : Nat) (hi : i < h.length) :
    MaxHeap.Get h (i : Int) = some (h.getD i default) := by
  unfold MaxHeap.Get
  rw [if_neg]
  · rw [Int.toNat_natCast, List.getD_eq_getElem?_getD, List.getElem?_eq_getElem hi,
      List.get?_eq_get hi]
    rfl
  · push_neg
    constructor
    · exact Int.natCast_nonneg i
    · exact_mod_cast hi

/-- C7: full case analysis of `GET /`.  An empty store yields 404 with a
plain-text body; a non-empty store with a failing encoder yields 500 (with
`http.Error` resetting the content type to text/plain); otherwise the
response is 200, `application/json`, and its body is an object with exactly
the fields "text", "timestamp" and "uri" of the sampled item.  No input
makes the handler panic. -/
theorem c7_handler_response_shape (allPosts : MaxHeap) (r : Nat) (encodeErr : Bool) :
    randomPostHandler allPosts r encodeErr =
      if allPosts.isEmpty then
        some (HttpResponse.mk 404 "text/plain; charset=utf-8"
          (Body.plain "No posts available"))
      else if encodeErr then
        some (HttpResponse.mk 500 "text/plain; charset=utf-8"
          (Body.plain "Error encoding JSON"))
      else
        some (HttpResponse.mk 200 "application/json"
          (Body.json (Json.obj
            [("text", Json.str (allPosts.getD (r % allPosts.length) default).text),
             ("timestamp", Json.str (allPosts.getD (r % allPosts.length) default).timestamp),
             ("uri", Json.str (allPosts.getD (r % allPosts.length) default).uri)]))) := by
  cases allPosts with
  | nil => simp [randomPostHandler, MaxHeap.Len]
  | cons p ps =>
    have hi : r % (p :: ps).length < (p :: ps).length :=
      Nat.mod_lt _ (Nat.succ_pos ps.length)
    have hget := MaxHeap.Get_of_lt (p :: ps) (r % (p :: ps).length) hi
    have hcast : ((r % (p :: ps).length : Nat) : Int) = (r : Int) % ((ps.length : Int) + 1) := by
      push_cast
      simp
    rw [hcast] at hget
    cases encodeErr <;>
      simp [randomPostHandler, MaxHeap.Len, randIntn, hget, postDataJson]

/-- C8: for a non-empty store, `rand.Intn` yields the in-bounds index
`r % len`, the out-of-bounds panic branch of `Get` is not taken (the result
is `some`), and the served post is a member of the current contents. -/
theorem c8_sample_is_member (allPosts : MaxHeap) (r : Nat) (h : allPosts ≠ []) :
    randIntn r (MaxHeap.Len allPosts) = some (r % allPosts.length) ∧
    r % allPosts.length < allPosts.length ∧
    ∃ p, MaxHeap.Get allPosts ((r % allPosts.length : Nat) : Int) = some p ∧
      p ∈ allPosts ∧
      randomPostHandler allPosts r false =
        some (HttpResponse.mk 200 "application/json" (Body.json (postDataJson p))) := by
  cases allPosts with
  | nil => cases h rfl
  | cons q qs =>
    have hi : r % (q :: qs).length < (q :: qs).length :=
      Nat.mod_lt _ (Nat.succ_pos qs.length)
    have hget := MaxHeap.Get_of_lt (q :: qs) (r % (q :: qs).length) hi
    have hne : MaxHeap.Len (q :: qs) ≠ 0 := by simp [MaxHeap.Len]
    refine ⟨by simp [randIntn, MaxHeap.Len], hi,
      (q :: qs).getD (r % (q :: qs).length) default, hget, ?_, ?_⟩
    · have hgd : (q :: qs).getD (r % (q :: qs).length) default = (q :: qs).get ⟨_, hi⟩ := by
        rw [List.getD_eq_getElem?_getD, List.getElem?_eq_getElem hi]
        rfl
      rw [hgd]
      exact List.get_mem _ _ _
    · have hcast : ((r % (q :: qs).length : Nat) : Int) = (r : Int) % ((qs.length : Int) + 1) := by
        push_cast
        simp
      rw [hcast] at hget
      simp [randomPostHandler, MaxHeap.Len, randIntn, hget, postDataJson]

/-- C8 witness: at the concrete store `[pOld, pNew]` with draw 3, the sample
is in bounds and the served post belongs to the store. -/
theorem c8_sample_is_member_witness :
    ∃ p, MaxHeap.Get [pOld, pNew] ((3 % ([pOld, pNew] : MaxHeap).length : Nat) : Int) = some p ∧
      p ∈ ([pOld, pNew] : MaxHeap) ∧
      randomPostHandler [pOld, pNew] 3 false =
        some (HttpResponse.mk 200 "application/json" (Body.json (postDataJson p))) :=
  (c8_sample_is_member [pOld, pNew] 3 (by decide)).2.2

/-! ### C10 — unchecked type assertion on the record union -/

/-- A fetched window containing any non-feed-post record makes the push loop
panic on the type assertion. -/
theorem pushAll_panics_of_bad (postList : List PostView) :
    ∀ s : MaxHeap, (∃ p ∈ postList, p.record = RecordVal.other) →
      pushAll postList s = Outcome.panicked "interface conversion: not a FeedPost" := by
  induction postList with
  | nil =>
    intro s h
    rcases h with ⟨p, hp, _⟩
    cases hp
  | cons q rest ih =>
    intro s h
    cases hq : q.record with
    | other => simp [pushAll, hq]
    | feedPost fp =>
      rcases h with ⟨p, hp, hb⟩
      rcases List.mem_cons.mp hp with rfl | hmem
      · rw [hb] at hq
        cases hq
      · simp only [pushAll, hq]
        exact ih _ ⟨p, hmem, hb⟩

/-- C10: if the fetched feed contains an item whose embedded record is not a
`*bsky.FeedPost`, the refresh path panics on the unchecked type assertion:
`updatePosts` panics when any item of its fetched window has such a record,
and `checkForNewPosts` panics when its single probed item does, in both
cases instead of skipping the item or returning an error. -/
theorem c10_bad_record_panics (remote : Remote) (handle : String) (limit : Int)
    (s : MaxHeap) :
    (∀ pl p, (getHandlePostList remote handle 100).1 = Outcome.ok pl → p ∈ pl →
        p.record = RecordVal.other →
        (updatePosts remote handle limit s).1 =
          Outcome.panicked "interface conversion: not a FeedPost") ∧
    (∀ pl recent, (getHandlePostList remote handle 1).1 = Outcome.ok pl →
        pl.head? = some recent → recent.record = RecordVal.other →
        (checkForNewPosts remote handle limit s).1 =
          Outcome.panicked "interface conversion: not a FeedPost") := by
  constructor
  · intro pl p h1 hp hb
    have hpush := pushAll_panics_of_bad pl s ⟨p, hp, hb⟩
    simp [updatePosts, h1, hpush]
  · intro pl recent h1 h2 h3
    simp [checkForNewPosts, h1, h2, h3]

/-- C10 witness: a remote whose feed contains only a non-feed-post record
makes both the full refresh and the single-newest check panic. -/
theorem c10_bad_record_panics_witness :
    (updatePosts remoteBad "carl.cx" 100 []).1 =
      Outcome.panicked "interface conversion: not a FeedPost" ∧
    (checkForNewPosts remoteBad "carl.cx" 100 [pNew]).1 =
      Outcome.panicked "interface conversion: not a FeedPost" :=
  ⟨(c10_bad_record_panics remoteBad "carl.cx" 100 []).1 [vBad] vBad (by decide)
      (by decide) rfl,
   (c10_bad_record_panics remoteBad "carl.cx" 100 [pNew]).2 [vBad] vBad (by decide)
      (by decide) rfl⟩
